import Mathlib

/-!
CNTK `Source/Math/Quantizers.h`: the symmetric quantizer

A shallow embedding of `SymmetricQuantizer<RawType, QuantizedType>` and theorems
about it.

Modelling decisions, all visible in the definitions below:

* `RawType` (an IEEE floating-point type) is modelled with exact rational
  arithmetic on its finite values, plus the three special values `+inf`,
  `-inf` and `NaN`.  No rounding and no overflow of finite values is modelled;
  `-0.0` is identified with `+0.0`.
* `int` is the 32-bit two's complement integer; `1 << extraBits` wraps, and
  the shift count is taken modulo 32 as the x86 shift instruction does.
* a local variable or member that the source never initialises is an explicit
  parameter of the function that reads it (`maxElem0`, `m_quantizer0`).
* a call either returns, throws (`LogicError`), fails an `assert`, or reads a
  vector out of bounds; `Outcome` records which.
-/

set_option linter.unusedVariables false

namespace CNTK

/-! ## Values of `RawType` -/

/-- Values of the template parameter `RawType`: a finite value (exact), the two
infinities, or NaN. -/
inductive RawType where
  | fin (q : ℚ)
  | posInf
  | negInf
  | nan
  deriving DecidableEq

namespace RawType

/-- Conversion of a C++ `int` to `RawType` (exact). -/
def ofInt (i : Int) : RawType := fin (i : ℚ)

/-- The C++ predicate `std::isfinite`. -/
def isFinite : RawType → Bool
  | fin _ => true
  | _ => false

/-- The C++ predicate `std::isinf`. -/
def isInf : RawType → Bool
  | posInf => true
  | negInf => true
  | _ => false

/-- IEEE multiplication, exact on finite operands. -/
def mul : RawType → RawType → RawType
  | nan, _ => nan
  | _, nan => nan
  | fin a, fin b => fin (a * b)
  | fin a, posInf => if a = 0 then nan else if 0 < a then posInf else negInf
  | fin a, negInf => if a = 0 then nan else if 0 < a then negInf else posInf
  | posInf, fin b => if b = 0 then nan else if 0 < b then posInf else negInf
  | negInf, fin b => if b = 0 then nan else if 0 < b then negInf else posInf
  | posInf, posInf => posInf
  | posInf, negInf => negInf
  | negInf, posInf => negInf
  | negInf, negInf => posInf

/-- IEEE division, exact on finite operands.  A finite non-zero value divided
by zero is an infinity (the sign is that of the dividend, the zero being taken
as `+0.0`); `0 / 0` and `inf / inf` are NaN. -/
def div : RawType → RawType → RawType
  | nan, _ => nan
  | _, nan => nan
  | fin a, fin b =>
      if b = 0 then (if a = 0 then nan else if 0 < a then posInf else negInf)
      else fin (a / b)
  | fin _, posInf => fin 0
  | fin _, negInf => fin 0
  | posInf, fin b => if 0 ≤ b then posInf else negInf
  | negInf, fin b => if 0 ≤ b then negInf else posInf
  | posInf, posInf => nan
  | posInf, negInf => nan
  | negInf, posInf => nan
  | negInf, negInf => nan

/-- The C++ comparison `a < b` on `RawType`: false whenever an operand is NaN. -/
def lt : RawType → RawType → Bool
  | fin a, fin b => decide (a < b)
  | fin _, posInf => true
  | negInf, fin _ => true
  | negInf, posInf => true
  | _, _ => false

/-- The C++ comparison `a <= b` on `RawType`: false whenever an operand is NaN. -/
def le : RawType → RawType → Bool
  | fin a, fin b => decide (a ≤ b)
  | fin _, posInf => true
  | negInf, fin _ => true
  | negInf, posInf => true
  | posInf, posInf => true
  | negInf, negInf => true
  | _, _ => false

end RawType

/-! ## The C++ library functions the header calls -/

namespace std

/-- The C++ `std::max(a, b)`: `(a < b) ? b : a`. -/
def max (a b : RawType) : RawType := if RawType.lt a b then b else a

/-- The C++ `std::min(a, b)`: `(b < a) ? b : a`. -/
def min (a b : RawType) : RawType := if RawType.lt b a then b else a

/-- The C++ `std::abs` on a floating-point value. -/
def abs : RawType → RawType
  | RawType.fin a => RawType.fin |a|
  | RawType.posInf => RawType.posInf
  | RawType.negInf => RawType.posInf
  | RawType.nan => RawType.nan

end std

/-! ## 32-bit `int` -/

/-- Wrap an integer into the range of a 32-bit two's complement `int`. -/
def wrapInt32 (v : Int) : Int := (v + 2 ^ 31) % 2 ^ 32 - 2 ^ 31

/-- The C++ expression `a << n` on 32-bit `int`: the product `a * 2^n`, wrapped.
For `n` outside `0 .. 31` the C++ standard leaves the result undefined; the
model follows the x86 shift instruction the compiled code executes, which uses
the count modulo 32 (so `1 << 32` is `1` and `1 << -1` is `-2147483648`). -/
def shiftLeft (a n : Int) : Int := wrapInt32 (a * 2 ^ (n % 32).toNat)

/-! ## Outcomes of a call -/

/-- The kinds of exception a call can end with: `logicError` is what the
helper `LogicError` raises; `invalidArgument` is the kind the specification
names `InvalidArgument`, which nothing in this header raises. -/
inductive ExceptionKind where
  | logicError
  | invalidArgument
  deriving DecidableEq

/-- How a call ends: it returns a value, throws, fails an `assert`, or reads a
vector element that does not exist. -/
inductive Outcome (α : Type) where
  | ok (a : α)
  | thrown (kind : ExceptionKind) (msg : String)
  | assertionFailed
  | outOfBounds
  deriving DecidableEq

namespace Outcome

/-- Sequencing: the continuation runs only when the first call returned. -/
def bind {α β : Type} : Outcome α → (α → Outcome β) → Outcome β
  | ok a, f => f a
  | thrown k m, _ => thrown k m
  | assertionFailed, _ => assertionFailed
  | outOfBounds, _ => outOfBounds

/-- Whether the call returned normally. -/
def isOk {α : Type} : Outcome α → Bool
  | ok _ => true
  | _ => false

end Outcome

/-- Modelled from the spec: `LogicError` is declared outside this header.  Per
the spec (section 7) a failure is surfaced synchronously to the caller as a
distinguishable error and the failing operation yields nothing, so a call of
`LogicError(msg)` ends the enclosing function with a logic error carrying
`msg`. -/
def LogicError {α : Type} (msg : String) : Outcome α :=
  Outcome.thrown ExceptionKind.logicError msg

/-! ## `SymmetricQuantizer` -/

/-- The types the template parameter `QuantizedType` is instantiated with. -/
inductive QuantizedType where
  | signedChar
  | short
  | unsignedShort
  | int
  | long
  | longLong
  deriving DecidableEq

/-- The data member of `SymmetricQuantizer`: `RawType m_quantizer`. -/
structure SymmetricQuantizer where
  m_quantizer : RawType
  deriving DecidableEq

namespace SymmetricQuantizer

/-- The private member `FindAbsMax` (lines 66-76).  `maxElem0` is the content
of the local `maxElem`, which the source declares without an initialiser;
`minElem` starts from `elements[0]`, which does not exist in an empty vector. -/
def FindAbsMax (maxElem0 : RawType) (elements : List RawType) : Outcome RawType :=
  match elements with
  | [] => Outcome.outOfBounds
  | e0 :: _ =>
    let acc := elements.foldl
      (fun (acc : RawType × RawType) element =>
        (std.max acc.1 element, std.min acc.2 element))
      (maxElem0, e0)
    Outcome.ok (std.max acc.1 (std.abs acc.2))

/-- The constructor `SymmetricQuantizer(RawType& absoluteMax, const int extraBits)`
(lines 41-53), for the instantiation with quantized type `Q`. -/
def ofAbsoluteMax (Q : QuantizedType) (absoluteMax : RawType) (extraBits : Int) :
    Outcome SymmetricQuantizer :=
  let m_quantizer := RawType.mul absoluteMax (RawType.ofInt (shiftLeft 1 extraBits))
  if Q = QuantizedType.short then
    let m_quantizer := RawType.div (RawType.ofInt 32768) m_quantizer
    Outcome.ok ⟨m_quantizer⟩
  else
    LogicError "Provided type is not yet supported by the quantizer"

/-- The constructor `SymmetricQuantizer(std::vector<RawType>& elements, const int& extraBits)`
(lines 32-37).  `ndebug` tells whether `assert` is compiled out.  The statement
`SymmetricQuantizer(absMax, extraBits);` builds and discards a temporary object,
so the member `m_quantizer` of the object under construction keeps its
indeterminate initial content `m_quantizer0`. -/
def ofElements (Q : QuantizedType) (ndebug : Bool) (maxElem0 m_quantizer0 : RawType)
    (elements : List RawType) (extraBits : Int) : Outcome SymmetricQuantizer :=
  if !ndebug && !decide (elements.length > 0) then Outcome.assertionFailed
  else
    (FindAbsMax maxElem0 elements).bind fun absMax =>
    (ofAbsoluteMax Q absMax extraBits).bind fun _temporary =>
    Outcome.ok ⟨m_quantizer0⟩

/-- The member `Quantize` (lines 55-58): the result of the call, paired with
the content of the caller's `output` vector afterwards. -/
def Quantize (self : SymmetricQuantizer) (input : List RawType) (output : List Int) :
    Outcome Unit × List Int :=
  (LogicError "TODO", output)

/-- The member `Dequantize` (lines 60-63): the result of the call, paired with
the content of the caller's `output` vector afterwards. -/
def Dequantize (self : SymmetricQuantizer) (input : List Int) (output : List RawType) :
    Outcome Unit × List RawType :=
  (LogicError "TODO", output)

end SymmetricQuantizer

/-! ## Reference notions of the specification -/

/-- The true maximum of the absolute values of the non-empty buffer
`e0 :: rest` of finite values: the mathematical reference `FindAbsMax` is
compared with. -/
def trueAbsMax (e0 : ℚ) (rest : List ℚ) : ℚ :=
  (rest.map fun e => |e|).foldl max |e0|

/-! ## Auxiliary facts -/

open SymmetricQuantizer

/-- A value inside the 32-bit range is left alone by the wrap. -/
theorem wrapInt32_of_range (v : Int) (hlo : -2 ^ 31 ≤ v) (hhi : v < 2 ^ 31) :
    wrapInt32 v = v := by
  unfold wrapInt32
  rw [Int.emod_eq_of_lt] <;> omega

/-- For a shift count in `0 .. 30` the expression `1 << n` is the power of two. -/
theorem shiftLeft_one_eq_pow (n : Int) (h0 : 0 ≤ n) (h30 : n ≤ 30) :
    shiftLeft 1 n = 2 ^ n.toNat := by
  have hn : n.toNat ≤ 30 := by omega
  have hle : (2 : Int) ^ n.toNat ≤ 2 ^ 30 := pow_le_pow_right₀ (by norm_num) hn
  have hpos : (0 : Int) < 2 ^ n.toNat := by positivity
  have hmod : n % 32 = n := Int.emod_eq_of_lt h0 (by omega)
  unfold shiftLeft
  rw [one_mul, hmod]
  apply wrapInt32_of_range <;> omega

/-- The explicit-bound constructor, instantiated for `short`, always returns,
and the scale it stores is the quotient `32768 / (absoluteMax * (1 << extraBits))`. -/
theorem ofAbsoluteMax_short (absoluteMax : RawType) (extraBits : Int) :
    ofAbsoluteMax QuantizedType.short absoluteMax extraBits
      = Outcome.ok ⟨RawType.div (RawType.ofInt 32768)
          (RawType.mul absoluteMax (RawType.ofInt (shiftLeft 1 extraBits)))⟩ := by
  simp [ofAbsoluteMax]

/-- The explicit-bound constructor, instantiated for another type than `short`,
throws. -/
theorem ofAbsoluteMax_other (Q : QuantizedType) (hQ : Q ≠ QuantizedType.short)
    (absoluteMax : RawType) (extraBits : Int) :
    ofAbsoluteMax Q absoluteMax extraBits
      = Outcome.thrown ExceptionKind.logicError
          "Provided type is not yet supported by the quantizer" := by
  simp [ofAbsoluteMax, hQ, LogicError]

/-- On a non-empty vector `FindAbsMax` returns. -/
theorem FindAbsMax_isOk (maxElem0 : RawType) (elements : List RawType)
    (hne : elements ≠ []) : ∃ r, FindAbsMax maxElem0 elements = Outcome.ok r := by
  cases elements with
  | nil => exact absurd rfl hne
  | cons e0 rest => exact ⟨_, rfl⟩

/-- On a non-empty vector the sample-buffer constructor, instantiated for
`short`, returns an object whose scale is the indeterminate initial content of
the member: the scale computed from the scan went into the temporary. -/
theorem ofElements_short_of_ne_nil (ndebug : Bool) (maxElem0 m_quantizer0 : RawType)
    (elements : List RawType) (extraBits : Int) (hne : elements ≠ []) :
    ofElements QuantizedType.short ndebug maxElem0 m_quantizer0 elements extraBits
      = Outcome.ok ⟨m_quantizer0⟩ := by
  obtain ⟨r, hr⟩ := FindAbsMax_isOk maxElem0 elements hne
  have hlen : 0 < elements.length := List.length_pos.mpr hne
  simp [ofElements, hr, hlen, Outcome.bind, ofAbsoluteMax_short]

/-! ## C1: the scale stored by the explicit-bound constructor -/

/-- C1, as stated, fails at `absoluteMax = 1`, `extraBits = 31`: the `int`
expression `1 << 31` is `-2147483648`, so the constructor stores the negative
scale `-1/65536`; no strictly positive scale is stored. -/
theorem C1_scale_negative_at_extraBits_31 :
    ofAbsoluteMax QuantizedType.short (RawType.fin 1) 31
        = Outcome.ok ⟨RawType.fin (-1 / 65536)⟩ ∧
    ¬ ∃ s : ℚ, ofAbsoluteMax QuantizedType.short (RawType.fin 1) 31
        = Outcome.ok ⟨RawType.fin s⟩ ∧ 0 < s := by
  have h : ofAbsoluteMax QuantizedType.short (RawType.fin 1) 31
      = Outcome.ok ⟨RawType.fin (-1 / 65536)⟩ := by
    have hshift : shiftLeft 1 31 = -2147483648 := by decide
    rw [ofAbsoluteMax_short, hshift]
    norm_num [RawType.ofInt, RawType.mul, RawType.div]
  refine ⟨h, ?_⟩
  rintro ⟨s, hs, hpos⟩
  rw [h] at hs
  simp only [Outcome.ok.injEq, SymmetricQuantizer.mk.injEq, RawType.fin.injEq] at hs
  rw [← hs] at hpos
  norm_num at hpos

/-- C1, amended to `0 ≤ extraBits ≤ 30`: for the 16-bit type and every finite
`absoluteMax > 0`, the explicit-bound constructor returns a quantizer whose
scale is a finite value `s > 0` with `32768 / s = absoluteMax * (1 << extraBits)`,
and `1 << extraBits` is the power of two `2 ^ extraBits`. -/
theorem C1_scale_of_positive_bound (a : ℚ) (extraBits : Int)
    (ha : 0 < a) (h0 : 0 ≤ extraBits) (h30 : extraBits ≤ 30) :
    ∃ s : ℚ, ofAbsoluteMax QuantizedType.short (RawType.fin a) extraBits
        = Outcome.ok ⟨RawType.fin s⟩ ∧
      0 < s ∧
      32768 / s = a * (shiftLeft 1 extraBits : ℚ) ∧
      shiftLeft 1 extraBits = 2 ^ extraBits.toNat := by
  have hshift := shiftLeft_one_eq_pow extraBits h0 h30
  have hp : (0 : ℚ) < ((2 : Int) ^ extraBits.toNat : Int) := by
    have : (0 : Int) < 2 ^ extraBits.toNat := by positivity
    exact_mod_cast this
  have hm : 0 < a * (((2 : Int) ^ extraBits.toNat : Int) : ℚ) := mul_pos ha hp
  refine ⟨32768 / (a * (((2 : Int) ^ extraBits.toNat : Int) : ℚ)), ?_, ?_, ?_, hshift⟩
  · rw [ofAbsoluteMax_short, hshift]
    simp only [RawType.ofInt, RawType.mul, RawType.div]
    rw [if_neg (ne_of_gt hm)]
    norm_num
  · exact div_pos (by norm_num) hm
  · rw [hshift]
    field_simp

/-- C1 witness: `absoluteMax = 3`, `extraBits = 1`. -/
theorem C1_scale_of_positive_bound_witness :
    (0 : ℚ) < 3 ∧ (0 : Int) ≤ 1 ∧ (1 : Int) ≤ 30 ∧
    ∃ s : ℚ, ofAbsoluteMax QuantizedType.short (RawType.fin 3) 1
        = Outcome.ok ⟨RawType.fin s⟩ ∧
      0 < s ∧
      32768 / s = 3 * (shiftLeft 1 1 : ℚ) ∧
      shiftLeft 1 1 = 2 ^ (1 : Int).toNat :=
  ⟨by norm_num, by norm_num, by norm_num,
    C1_scale_of_positive_bound 3 1 (by norm_num) (by norm_num) (by norm_num)⟩

/-! ## C2: `FindAbsMax` and the absolute maximum -/

/-- C2 fails on the code at the buffer `[1.0]` when the uninitialised local
`maxElem` happens to hold `5.0`: `FindAbsMax` returns `5.0`, which is the
absolute value of no element of the buffer. -/
theorem C2_FindAbsMax_keeps_uninitialised_maxElem :
    FindAbsMax (RawType.fin 5) [RawType.fin 1] = Outcome.ok (RawType.fin 5) ∧
    ¬ ∃ e ∈ [RawType.fin 1], RawType.fin 5 = std.abs e := by
  constructor
  · norm_num [FindAbsMax, std.max, std.min, std.abs, RawType.lt]
  · norm_num [std.abs]

/-! ## C3: the two construction forms -/

/-- C3 fails on the code at the buffer `[2.0, -4.0]` (absolute maximum `4.0`)
with `extraBits = 2`: whatever the indeterminate contents, the sample-buffer
constructor returns a quantizer holding the initial content of `m_quantizer`
(here `0.0`), while the explicit-bound constructor from `4.0` holds `2048`. -/
theorem C3_sample_buffer_scale_differs :
    FindAbsMax (RawType.fin 2) [RawType.fin 2, RawType.fin (-4)]
        = Outcome.ok (RawType.fin 4) ∧
    (∀ (ndebug : Bool) (maxElem0 m_quantizer0 : RawType),
      ofElements QuantizedType.short ndebug maxElem0 m_quantizer0
        [RawType.fin 2, RawType.fin (-4)] 2 = Outcome.ok ⟨m_quantizer0⟩) ∧
    ofElements QuantizedType.short false (RawType.fin 2) (RawType.fin 0)
        [RawType.fin 2, RawType.fin (-4)] 2 = Outcome.ok ⟨RawType.fin 0⟩ ∧
    ofAbsoluteMax QuantizedType.short (RawType.fin 4) 2
        = Outcome.ok ⟨RawType.fin 2048⟩ := by
  refine ⟨?_, ?_, ?_, ?_⟩
  · norm_num [FindAbsMax, std.max, std.min, std.abs, RawType.lt]
  · intro ndebug maxElem0 m_quantizer0
    exact ofElements_short_of_ne_nil ndebug maxElem0 m_quantizer0 _ 2 (by simp)
  · exact ofElements_short_of_ne_nil false _ _ _ 2 (by simp)
  · have hshift : shiftLeft 1 2 = 4 := by decide
    rw [ofAbsoluteMax_short, hshift]
    norm_num [RawType.ofInt, RawType.mul, RawType.div]

/-! ## C4: the round trip -/

/-- C4, as stated, fails at `absoluteMax = 1`, `extraBits = 0`, `x = 1/2`: the
constructed quantizer holds the scale `32768`, and `Quantize([x])` throws the
logic error "TODO" instead of succeeding. -/
theorem C4_quantize_does_not_succeed :
    ofAbsoluteMax QuantizedType.short (RawType.fin 1) 0
        = Outcome.ok ⟨RawType.fin 32768⟩ ∧
    Quantize ⟨RawType.fin 32768⟩ [RawType.fin (1 / 2)] []
        = (Outcome.thrown ExceptionKind.logicError "TODO", []) ∧
    ¬ ∃ out, Quantize ⟨RawType.fin 32768⟩ [RawType.fin (1 / 2)] []
        = (Outcome.ok (), out) := by
  refine ⟨?_, rfl, ?_⟩
  · have hshift : shiftLeft 1 0 = 1 := by decide
    rw [ofAbsoluteMax_short, hshift]
    norm_num [RawType.ofInt, RawType.mul, RawType.div]
  · rintro ⟨out, h⟩
    simp [Quantize, LogicError] at h

/-- C4, amended: for every quantizer and every `x`, `Quantize([x])` throws the
logic error "TODO" and leaves the output vector as it was, and the round trip
(`Dequantize` run on that vector when `Quantize` returned) ends with the same
logic error; no round-trip value exists to be compared with `x`. -/
theorem C4_round_trip_throws (self : SymmetricQuantizer) (x : RawType)
    (output : List Int) (output2 : List RawType) :
    Quantize self [x] output
        = (Outcome.thrown ExceptionKind.logicError "TODO", output) ∧
    (Quantize self [x] output).1.bind
        (fun _ => (Dequantize self (Quantize self [x] output).2 output2).1)
      = Outcome.thrown ExceptionKind.logicError "TODO" :=
  ⟨rfl, rfl⟩

/-! ## C5: `Quantize` -/

/-- C5, as stated, fails at scale `1` and the empty input: `Quantize` throws the
logic error "TODO" instead of returning with an empty output. -/
theorem C5_quantize_empty_throws :
    Quantize ⟨RawType.fin 1⟩ [] []
        = (Outcome.thrown ExceptionKind.logicError "TODO", []) ∧
    Quantize ⟨RawType.fin 1⟩ [] [] ≠ (Outcome.ok (), []) := by
  refine ⟨rfl, ?_⟩
  simp [Quantize, LogicError]

/-- C5, amended: for every quantizer and every input sequence (the empty one
included), `Quantize` does not return: its outcome is the logic error "TODO",
so no output sequence is produced. -/
theorem C5_quantize_throws (self : SymmetricQuantizer) (input : List RawType)
    (output : List Int) :
    (Quantize self input output).1 = Outcome.thrown ExceptionKind.logicError "TODO" ∧
    (Quantize self input output).1.isOk = false :=
  ⟨rfl, rfl⟩

/-! ## C6: `Dequantize` -/

/-- C6, as stated, fails at scale `2` and the input `[4]`: `Dequantize` throws
the logic error "TODO" instead of returning `[2.0]`. -/
theorem C6_dequantize_fails :
    Dequantize ⟨RawType.fin 2⟩ [4] []
        = (Outcome.thrown ExceptionKind.logicError "TODO", []) ∧
    Dequantize ⟨RawType.fin 2⟩ [4] [] ≠ (Outcome.ok (), [RawType.fin 2]) := by
  refine ⟨rfl, ?_⟩
  simp [Dequantize, LogicError]

/-- C6, amended: for every quantizer and every input sequence of quantized
integers, `Dequantize` does not return: its outcome is the logic error "TODO",
so no output sequence is produced. -/
theorem C6_dequantize_throws (self : SymmetricQuantizer) (input : List Int)
    (output : List RawType) :
    (Dequantize self input output).1 = Outcome.thrown ExceptionKind.logicError "TODO" ∧
    (Dequantize self input output).1.isOk = false :=
  ⟨rfl, rfl⟩

/-! ## C7: unsupported quantized types -/

/-- C7: for every quantized type other than `short`, the explicit-bound
constructor (for every bound and `extraBits`) and the sample-buffer constructor
(for every non-empty buffer, every `extraBits`, every indeterminate content and
with or without assertions) end with the logic error "Provided type is not yet
supported by the quantizer", so neither returns a quantizer; for `short` the
explicit-bound constructor returns a quantizer and so does not throw. -/
theorem C7_unsupported_type_throws (Q : QuantizedType) (ndebug : Bool)
    (maxElem0 m_quantizer0 absoluteMax : RawType) (elements : List RawType)
    (extraBits : Int) (hQ : Q ≠ QuantizedType.short) (hne : elements ≠ []) :
    ofAbsoluteMax Q absoluteMax extraBits
        = Outcome.thrown ExceptionKind.logicError
            "Provided type is not yet supported by the quantizer" ∧
    ofElements Q ndebug maxElem0 m_quantizer0 elements extraBits
        = Outcome.thrown ExceptionKind.logicError
            "Provided type is not yet supported by the quantizer" ∧
    (ofAbsoluteMax Q absoluteMax extraBits).isOk = false ∧
    (ofElements Q ndebug maxElem0 m_quantizer0 elements extraBits).isOk = false ∧
    (ofAbsoluteMax QuantizedType.short absoluteMax extraBits).isOk = true := by
  have hexplicit := ofAbsoluteMax_other Q hQ
  obtain ⟨r, hr⟩ := FindAbsMax_isOk maxElem0 elements hne
  have hlen : 0 < elements.length := List.length_pos.mpr hne
  have hsample : ofElements Q ndebug maxElem0 m_quantizer0 elements extraBits
      = Outcome.thrown ExceptionKind.logicError
          "Provided type is not yet supported by the quantizer" := by
    simp [ofElements, hr, hlen, Outcome.bind, hexplicit]
  refine ⟨hexplicit absoluteMax extraBits, hsample, ?_, ?_, ?_⟩
  · rw [hexplicit]; rfl
  · rw [hsample]; rfl
  · rw [ofAbsoluteMax_short]; rfl

/-- C7 witness: the quantized type `int`, the bound `3.0`, the buffer
`[-3.0, 1.0]` and `extraBits = 1`. -/
theorem C7_unsupported_type_throws_witness :
    QuantizedType.int ≠ QuantizedType.short ∧
    [RawType.fin (-3), RawType.fin 1] ≠ [] ∧
    ofAbsoluteMax QuantizedType.int (RawType.fin 3) 1
        = Outcome.thrown ExceptionKind.logicError
            "Provided type is not yet supported by the quantizer" ∧
    ofElements QuantizedType.int false (RawType.fin (-3)) (RawType.fin 0)
        [RawType.fin (-3), RawType.fin 1] 1
        = Outcome.thrown ExceptionKind.logicError
            "Provided type is not yet supported by the quantizer" ∧
    (ofAbsoluteMax QuantizedType.int (RawType.fin 3) 1).isOk = false ∧
    (ofElements QuantizedType.int false (RawType.fin (-3)) (RawType.fin 0)
        [RawType.fin (-3), RawType.fin 1] 1).isOk = false ∧
    (ofAbsoluteMax QuantizedType.short (RawType.fin 3) 1).isOk = true :=
  ⟨by decide, by simp,
    C7_unsupported_type_throws QuantizedType.int false (RawType.fin (-3)) (RawType.fin 0)
      (RawType.fin 3) [RawType.fin (-3), RawType.fin 1] 1 (by decide) (by simp)⟩

/-! ## C8: the empty buffer -/

/-- C8, as stated, fails at the empty buffer with `extraBits = 1`: `FindAbsMax`
checks nothing and reads `elements[0]` out of bounds, and the sample-buffer
constructor stops at its `assert` (or, with assertions compiled out, at that
read); neither ends with an invalid-argument error. -/
theorem C8_empty_buffer_no_invalid_argument :
    FindAbsMax (RawType.fin 0) [] = Outcome.outOfBounds ∧
    ofElements QuantizedType.short false (RawType.fin 0) (RawType.fin 0) [] 1
        = Outcome.assertionFailed ∧
    ofElements QuantizedType.short true (RawType.fin 0) (RawType.fin 0) [] 1
        = Outcome.outOfBounds ∧
    (¬ ∃ msg, FindAbsMax (RawType.fin 0) []
        = Outcome.thrown ExceptionKind.invalidArgument msg) ∧
    (¬ ∃ msg, ofElements QuantizedType.short false (RawType.fin 0) (RawType.fin 0) [] 1
        = Outcome.thrown ExceptionKind.invalidArgument msg) := by
  refine ⟨rfl, rfl, rfl, ?_, ?_⟩
  · rintro ⟨msg, h⟩
    simp [FindAbsMax] at h
  · rintro ⟨msg, h⟩
    simp [ofElements] at h

/-- C8, amended: with assertions enabled, the sample-buffer constructor given an
empty buffer fails the assertion `elements.size() > 0`, for every quantized
type, every `extraBits` and every indeterminate content; it returns no
quantizer and does not get as far as `FindAbsMax`. -/
theorem C8_empty_buffer_fails_assertion (Q : QuantizedType)
    (maxElem0 m_quantizer0 : RawType) (extraBits : Int) :
    ofElements Q false maxElem0 m_quantizer0 [] extraBits = Outcome.assertionFailed ∧
    (ofElements Q false maxElem0 m_quantizer0 [] extraBits).isOk = false :=
  ⟨rfl, rfl⟩

/-! ## C9: the bound zero -/

/-- C9, as stated, fails at `absoluteMax = 0`, `extraBits = 1`: the constructor
divides `32768` by zero and stores `+inf`, not the sentinel `1`. -/
theorem C9_zero_bound_no_sentinel :
    ofAbsoluteMax QuantizedType.short (RawType.fin 0) 1 = Outcome.ok ⟨RawType.posInf⟩ ∧
    ofAbsoluteMax QuantizedType.short (RawType.fin 0) 1 ≠ Outcome.ok ⟨RawType.fin 1⟩ := by
  have h : ofAbsoluteMax QuantizedType.short (RawType.fin 0) 1
      = Outcome.ok ⟨RawType.posInf⟩ := by
    rw [ofAbsoluteMax_short]
    norm_num [RawType.ofInt, RawType.mul, RawType.div]
  refine ⟨h, ?_⟩
  rw [h]
  simp

/-- C9, amended: for the 16-bit type and every `extraBits`, constructing from
the bound `0` returns a quantizer whose scale is the quotient of `32768` by
zero, an infinity: it is not finite and it is not the sentinel `1`. -/
theorem C9_zero_bound_scale_infinite (extraBits : Int) :
    ∃ q : SymmetricQuantizer,
      ofAbsoluteMax QuantizedType.short (RawType.fin 0) extraBits = Outcome.ok q ∧
      q.m_quantizer = RawType.div (RawType.fin 32768) (RawType.fin 0) ∧
      q.m_quantizer.isInf = true ∧
      q.m_quantizer.isFinite = false ∧
      q.m_quantizer ≠ RawType.fin 1 := by
  refine ⟨⟨RawType.posInf⟩, ?_, ?_, rfl, rfl, ?_⟩
  · rw [ofAbsoluteMax_short]
    norm_num [RawType.ofInt, RawType.mul, RawType.div]
  · norm_num [RawType.div]
  · simp

/-! ## C10: the concrete scenario -/

/-- C10, as stated, fails at its last step: with the scale `32768 / 6`,
`Quantize([-3.0])` throws the logic error "TODO" instead of returning
`[-16384]`. -/
theorem C10_scenario_quantize_throws :
    Quantize ⟨RawType.fin (32768 / 6)⟩ [RawType.fin (-3)] []
        = (Outcome.thrown ExceptionKind.logicError "TODO", []) ∧
    Quantize ⟨RawType.fin (32768 / 6)⟩ [RawType.fin (-3)] []
        ≠ (Outcome.ok (), [-16384]) := by
  refine ⟨rfl, ?_⟩
  simp [Quantize, LogicError]

/-- C10, amended: with the 16-bit type, the bound `3.0` (the absolute maximum of
`[-3.0, 1.0, 2.5]`) and `extraBits = 1`, the explicit-bound constructor holds
the scale `32768 / 6`; with that scale `Quantize([-3.0])` throws the logic
error "TODO" and leaves the output vector empty. -/
theorem C10_scenario_on_the_code :
    ofAbsoluteMax QuantizedType.short (RawType.fin 3) 1
        = Outcome.ok ⟨RawType.fin (32768 / 6)⟩ ∧
    (ofAbsoluteMax QuantizedType.short (RawType.fin 3) 1).bind
        (fun self => (Quantize self [RawType.fin (-3)] []).1)
      = Outcome.thrown ExceptionKind.logicError "TODO" ∧
    (ofAbsoluteMax QuantizedType.short (RawType.fin 3) 1).bind
        (fun self => Outcome.ok (Quantize self [RawType.fin (-3)] []).2)
      = Outcome.ok [] := by
  have hshift : shiftLeft 1 1 = 2 := by decide
  have h : ofAbsoluteMax QuantizedType.short (RawType.fin 3) 1
      = Outcome.ok ⟨RawType.fin (32768 / 6)⟩ := by
    rw [ofAbsoluteMax_short, hshift]
    norm_num [RawType.ofInt, RawType.mul, RawType.div]
  refine ⟨h, ?_, ?_⟩
  · rw [h]; rfl
  · rw [h]; rfl

/-! ## Auxiliary facts about the scan -/

/-- On finite values `std::max` is the maximum. -/
theorem std_max_fin (a b : ℚ) :
    std.max (RawType.fin a) (RawType.fin b) = RawType.fin (max a b) := by
  unfold std.max RawType.lt
  by_cases h : a < b
  · simp [h, max_eq_right_of_lt h]
  · simp [h, max_eq_left (not_lt.mp h)]

/-- On finite values `std::min` is the minimum. -/
theorem std_min_fin (a b : ℚ) :
    std.min (RawType.fin a) (RawType.fin b) = RawType.fin (min a b) := by
  unfold std.min RawType.lt
  by_cases h : b < a
  · simp [h, min_eq_right_of_lt h]
  · simp [h, min_eq_left (not_lt.mp h)]

/-- The loop of `FindAbsMax` updates its two accumulators independently. -/
theorem scan_pair (l : List RawType) (a b : RawType) :
    l.foldl (fun (acc : RawType × RawType) element =>
        (std.max acc.1 element, std.min acc.2 element)) (a, b)
      = (l.foldl std.max a, l.foldl std.min b) := by
  induction l generalizing a b with
  | nil => rfl
  | cons x xs ih => simp only [List.foldl_cons, ih]

/-- The max accumulator over finite values, started from a finite value. -/
theorem scan_max_fin (l : List ℚ) (m : ℚ) :
    (l.map RawType.fin).foldl std.max (RawType.fin m) = RawType.fin (l.foldl max m) := by
  induction l generalizing m with
  | nil => rfl
  | cons x xs ih => simp only [List.map_cons, List.foldl_cons, std_max_fin, ih]

/-- The min accumulator over finite values, started from a finite value. -/
theorem scan_min_fin (l : List ℚ) (n : ℚ) :
    (l.map RawType.fin).foldl std.min (RawType.fin n) = RawType.fin (l.foldl min n) := by
  induction l generalizing n with
  | nil => rfl
  | cons x xs ih => simp only [List.map_cons, List.foldl_cons, std_min_fin, ih]

/-- The max accumulator started from `+inf` stays `+inf`. -/
theorem scan_max_posInf (l : List ℚ) :
    (l.map RawType.fin).foldl std.max RawType.posInf = RawType.posInf := by
  induction l with
  | nil => rfl
  | cons x xs ih =>
    simp only [List.map_cons, List.foldl_cons]
    have : std.max RawType.posInf (RawType.fin x) = RawType.posInf := rfl
    rw [this, ih]

/-- The max accumulator started from NaN stays NaN. -/
theorem scan_max_nan (l : List ℚ) :
    (l.map RawType.fin).foldl std.max RawType.nan = RawType.nan := by
  induction l with
  | nil => rfl
  | cons x xs ih =>
    simp only [List.map_cons, List.foldl_cons]
    have : std.max RawType.nan (RawType.fin x) = RawType.nan := rfl
    rw [this, ih]

/-- A left fold of `max` is at least its start value. -/
theorem foldl_max_ge_init (l : List ℚ) (m : ℚ) : m ≤ l.foldl max m := by
  induction l generalizing m with
  | nil => exact le_refl m
  | cons x xs ih => exact le_trans (le_max_left m x) (ih (max m x))

/-- A left fold of `max` is at least every element. -/
theorem foldl_max_ge_mem (l : List ℚ) (m e : ℚ) (he : e ∈ l) : e ≤ l.foldl max m := by
  induction l generalizing m with
  | nil => simp at he
  | cons x xs ih =>
    rcases List.mem_cons.mp he with h | h
    · subst h
      exact le_trans (le_max_right m e) (foldl_max_ge_init xs (max m e))
    · exact ih (max m x) h

/-- A left fold of `max` is its start value or an element. -/
theorem foldl_max_mem (l : List ℚ) (m : ℚ) : l.foldl max m = m ∨ l.foldl max m ∈ l := by
  induction l generalizing m with
  | nil => exact Or.inl rfl
  | cons x xs ih =>
    rcases ih (max m x) with h | h
    · rcases max_choice m x with hm | hm
      · left
        show List.foldl max (max m x) xs = m
        rw [h, hm]
      · right
        show List.foldl max (max m x) xs ∈ x :: xs
        rw [h, hm]
        exact List.mem_cons_self x xs
    · exact Or.inr (List.mem_cons_of_mem x h)

/-- A left fold of `min` is at most its start value. -/
theorem foldl_min_le_init (l : List ℚ) (n : ℚ) : l.foldl min n ≤ n := by
  induction l generalizing n with
  | nil => exact le_refl n
  | cons x xs ih => exact le_trans (ih (min n x)) (min_le_left n x)

/-- A left fold of `min` is at most every element. -/
theorem foldl_min_le_mem (l : List ℚ) (n e : ℚ) (he : e ∈ l) : l.foldl min n ≤ e := by
  induction l generalizing n with
  | nil => simp at he
  | cons x xs ih =>
    rcases List.mem_cons.mp he with h | h
    · subst h
      exact le_trans (foldl_min_le_init xs (min n e)) (min_le_right n e)
    · exact ih (min n x) h

/-- A left fold of `min` is its start value or an element. -/
theorem foldl_min_mem (l : List ℚ) (n : ℚ) : l.foldl min n = n ∨ l.foldl min n ∈ l := by
  induction l generalizing n with
  | nil => exact Or.inl rfl
  | cons x xs ih =>
    rcases ih (min n x) with h | h
    · rcases min_choice n x with hm | hm
      · left
        show List.foldl min (min n x) xs = n
        rw [h, hm]
      · right
        show List.foldl min (min n x) xs ∈ x :: xs
        rw [h, hm]
        exact List.mem_cons_self x xs
    · exact Or.inr (List.mem_cons_of_mem x h)

/-- The reference maximum bounds the absolute value of every element. -/
theorem trueAbsMax_ge (e0 : ℚ) (rest : List ℚ) (e : ℚ) (he : e ∈ e0 :: rest) :
    |e| ≤ trueAbsMax e0 rest := by
  unfold trueAbsMax
  rcases List.mem_cons.mp he with h | h
  · subst h
    exact foldl_max_ge_init _ _
  · exact foldl_max_ge_mem _ _ _ (List.mem_map.mpr ⟨e, h, rfl⟩)

/-- The reference maximum is the absolute value of some element. -/
theorem trueAbsMax_mem (e0 : ℚ) (rest : List ℚ) :
    ∃ e ∈ e0 :: rest, trueAbsMax e0 rest = |e| := by
  unfold trueAbsMax
  rcases foldl_max_mem (rest.map fun e => |e|) |e0| with h | h
  · exact ⟨e0, List.mem_cons_self e0 rest, h⟩
  · obtain ⟨e, he, heq⟩ := List.mem_map.mp h
    exact ⟨e, List.mem_cons_of_mem e0 he, heq.symm⟩

/-- The arithmetic of the scan on finite values: the larger of the running
maximum (started from `m`) and the absolute value of the running minimum
(started from the first element) is the larger of `m` and the reference
maximum. -/
theorem scan_result (m e0 : ℚ) (rest : List ℚ) :
    max ((e0 :: rest).foldl max m) |(e0 :: rest).foldl min e0|
      = max m (trueAbsMax e0 rest) := by
  have hmin_mem : (e0 :: rest).foldl min e0 ∈ e0 :: rest := by
    rcases foldl_min_mem (e0 :: rest) e0 with h | h
    · rw [h]; exact List.mem_cons_self e0 rest
    · exact h
  apply le_antisymm
  · apply max_le
    · rcases foldl_max_mem (e0 :: rest) m with h | h
      · rw [h]; exact le_max_left _ _
      · exact le_trans (le_abs_self _)
          (le_trans (trueAbsMax_ge e0 rest _ h) (le_max_right _ _))
    · exact le_trans (trueAbsMax_ge e0 rest _ hmin_mem) (le_max_right _ _)
  · apply max_le
    · exact le_trans (foldl_max_ge_init (e0 :: rest) m) (le_max_left _ _)
    · obtain ⟨e, he, heq⟩ := trueAbsMax_mem e0 rest
      rw [heq]
      apply abs_le'.mpr
      constructor
      · exact le_trans (foldl_max_ge_mem (e0 :: rest) m e he) (le_max_left _ _)
      · have h1 : (e0 :: rest).foldl min e0 ≤ e := foldl_min_le_mem (e0 :: rest) e0 e he
        have h2 : -(e0 :: rest).foldl min e0 ≤ |(e0 :: rest).foldl min e0| :=
          neg_le_abs _
        exact le_trans (by linarith) (le_max_right _ _)

/-- What `FindAbsMax` returns on a non-empty buffer of finite values, for every
content of the uninitialised `maxElem`: the `std::max` of that content and the
reference maximum. -/
theorem FindAbsMax_fin (maxElem0 : RawType) (e0 : ℚ) (rest : List ℚ) :
    FindAbsMax maxElem0 ((e0 :: rest).map RawType.fin)
      = Outcome.ok (std.max maxElem0 (RawType.fin (trueAbsMax e0 rest))) := by
  have hunfold : FindAbsMax maxElem0 ((e0 :: rest).map RawType.fin)
      = Outcome.ok (std.max
          (((e0 :: rest).map RawType.fin).foldl std.max maxElem0)
          (std.abs (((e0 :: rest).map RawType.fin).foldl std.min (RawType.fin e0)))) := by
    simp only [FindAbsMax, List.map_cons, scan_pair]
  rw [hunfold, scan_min_fin]
  cases maxElem0 with
  | fin m =>
    rw [scan_max_fin]
    simp only [std.abs, std_max_fin, scan_result]
  | posInf =>
    rw [scan_max_posInf]
    rfl
  | nan =>
    rw [scan_max_nan]
    rfl
  | negInf =>
    have hfirst : ((e0 :: rest).map RawType.fin).foldl std.max RawType.negInf
        = RawType.fin ((e0 :: rest).foldl max e0) := by
      have h1 : std.max RawType.negInf (RawType.fin e0) = RawType.fin e0 := rfl
      simp only [List.map_cons, List.foldl_cons, h1, scan_max_fin, max_self]
    rw [hfirst]
    simp only [std.abs, std_max_fin, scan_result]
    have hle : e0 ≤ trueAbsMax e0 rest :=
      le_trans (le_abs_self e0) (trueAbsMax_ge e0 rest e0 (List.mem_cons_self e0 rest))
    rw [max_eq_right hle]
    rfl

/-! ## Auxiliary facts about the scale and the rounding -/

/-- The explicit-bound constructor on a finite bound, when the product
`absoluteMax * (1 << extraBits)` is not zero: the scale is the exact quotient. -/
theorem ofAbsoluteMax_short_fin (a : ℚ) (extraBits : Int)
    (h : a * (shiftLeft 1 extraBits : ℚ) ≠ 0) :
    ofAbsoluteMax QuantizedType.short (RawType.fin a) extraBits
      = Outcome.ok ⟨RawType.fin (32768 / (a * (shiftLeft 1 extraBits : ℚ)))⟩ := by
  rw [ofAbsoluteMax_short]
  simp only [RawType.ofInt, RawType.mul, RawType.div]
  rw [if_neg h]
  norm_num

/-- For a shift count in `0 .. 30`, `1 << n` read as a rational is positive. -/
theorem shiftLeft_one_pos (n : Int) (h0 : 0 ≤ n) (h30 : n ≤ 30) :
    (0 : ℚ) < (shiftLeft 1 n : ℚ) := by
  rw [shiftLeft_one_eq_pow n h0 h30]
  have : (0 : Int) < 2 ^ n.toNat := by positivity
  exact_mod_cast this

/-- The shift `1 << n` does not decrease over the counts `0 .. 30`. -/
theorem shiftLeft_one_mono (n1 n2 : Int) (h0 : 0 ≤ n1) (h12 : n1 ≤ n2) (h30 : n2 ≤ 30) :
    (shiftLeft 1 n1 : ℚ) ≤ (shiftLeft 1 n2 : ℚ) := by
  rw [shiftLeft_one_eq_pow n1 h0 (le_trans h12 h30),
    shiftLeft_one_eq_pow n2 (le_trans h0 h12) h30]
  have hn : n1.toNat ≤ n2.toNat := by omega
  have : (2 : Int) ^ n1.toNat ≤ 2 ^ n2.toNat := pow_le_pow_right₀ (by norm_num) hn
  exact_mod_cast this

/-- C13, as stated, fails at `absoluteMax = 1`, `e1 = 1`, `e2 = 32`: the scale
built with `e1` is `16384`; the count `32` is as wide as `int`, the shift
instruction takes it modulo 32, so `1 << 32` is `1` and the scale built with
`e2` is `32768`, which is not less than or equal to `16384`. -/
theorem C13_scale_grows_beyond_int_width :
    shiftLeft 1 32 = 1 ∧
    ofAbsoluteMax QuantizedType.short (RawType.fin 1) 1
        = Outcome.ok ⟨RawType.fin 16384⟩ ∧
    ofAbsoluteMax QuantizedType.short (RawType.fin 1) 32
        = Outcome.ok ⟨RawType.fin 32768⟩ ∧
    RawType.le (RawType.fin 32768) (RawType.fin 16384) = false ∧
    RawType.lt (RawType.fin 16384) (RawType.fin 32768) = true := by
  have h32 : shiftLeft 1 32 = 1 := by decide
  refine ⟨h32, ?_, ?_, ?_, ?_⟩
  · have hshift : shiftLeft 1 1 = 2 := by decide
    rw [ofAbsoluteMax_short, hshift]
    norm_num [RawType.ofInt, RawType.mul, RawType.div]
  · rw [ofAbsoluteMax_short, h32]
    norm_num [RawType.ofInt, RawType.mul, RawType.div]
  · norm_num [RawType.le]
  · norm_num [RawType.lt]

/-- C13, amended to `0 ≤ e1 ≤ e2 ≤ 31` (the shift counts C++ defines on a
32-bit `int`), taking exact arithmetic for the floating-point operations (no
rounding, no overflow, no underflow): for the 16-bit type and every finite
`absoluteMax > 0`, both constructions return a quantizer and the scale built
with `e2` is less than or equal to the scale built with `e1`. -/
theorem C13_scale_antitone (a : ℚ) (e1 e2 : Int)
    (ha : 0 < a) (h0 : 0 ≤ e1) (h12 : e1 ≤ e2) (h31 : e2 ≤ 31) :
    ∃ q1 q2 : SymmetricQuantizer,
      ofAbsoluteMax QuantizedType.short (RawType.fin a) e1 = Outcome.ok q1 ∧
      ofAbsoluteMax QuantizedType.short (RawType.fin a) e2 = Outcome.ok q2 ∧
      RawType.le q2.m_quantizer q1.m_quantizer = true := by
  have key : ∃ s1 s2 : ℚ,
      ofAbsoluteMax QuantizedType.short (RawType.fin a) e1 = Outcome.ok ⟨RawType.fin s1⟩ ∧
      ofAbsoluteMax QuantizedType.short (RawType.fin a) e2 = Outcome.ok ⟨RawType.fin s2⟩ ∧
      s2 ≤ s1 := by
    by_cases h30 : e2 ≤ 30
    · have hk1 := shiftLeft_one_pos e1 h0 (le_trans h12 h30)
      have hk2 := shiftLeft_one_pos e2 (le_trans h0 h12) h30
      have hmono := shiftLeft_one_mono e1 e2 h0 h12 h30
      have hp1 : 0 < a * (shiftLeft 1 e1 : ℚ) := mul_pos ha hk1
      have hp2 : 0 < a * (shiftLeft 1 e2 : ℚ) := mul_pos ha hk2
      refine ⟨_, _, ofAbsoluteMax_short_fin a e1 (ne_of_gt hp1),
        ofAbsoluteMax_short_fin a e2 (ne_of_gt hp2), ?_⟩
      exact div_le_div_of_nonneg_left (by norm_num) hp1
        (mul_le_mul_of_nonneg_left hmono (le_of_lt ha))
    · have he2 : e2 = 31 := by omega
      subst he2
      have hshift : shiftLeft 1 31 = -2147483648 := by decide
      have hp2 : a * (shiftLeft 1 31 : ℚ) < 0 := by
        rw [hshift]
        push_cast
        linarith
      have hs2 : 32768 / (a * (shiftLeft 1 31 : ℚ)) < 0 :=
        div_neg_of_pos_of_neg (by norm_num) hp2
      by_cases h1 : e1 ≤ 30
      · have hk1 := shiftLeft_one_pos e1 h0 h1
        have hp1 : 0 < a * (shiftLeft 1 e1 : ℚ) := mul_pos ha hk1
        have hs1 : 0 < 32768 / (a * (shiftLeft 1 e1 : ℚ)) := div_pos (by norm_num) hp1
        exact ⟨_, _, ofAbsoluteMax_short_fin a e1 (ne_of_gt hp1),
          ofAbsoluteMax_short_fin a 31 (ne_of_lt hp2), by linarith⟩
      · have he1 : e1 = 31 := by omega
        subst he1
        exact ⟨_, _, ofAbsoluteMax_short_fin a 31 (ne_of_lt hp2),
          ofAbsoluteMax_short_fin a 31 (ne_of_lt hp2), le_refl _⟩
  obtain ⟨s1, s2, hc1, hc2, hle⟩ := key
  exact ⟨⟨RawType.fin s1⟩, ⟨RawType.fin s2⟩, hc1, hc2, by simp [RawType.le, hle]⟩

/-- C13 witness: `absoluteMax = 3`, `e1 = 1`, `e2 = 2`. -/
theorem C13_scale_antitone_witness :
    (0 : ℚ) < 3 ∧ (0 : Int) ≤ 1 ∧ (1 : Int) ≤ 2 ∧ (2 : Int) ≤ 31 ∧
    ∃ q1 q2 : SymmetricQuantizer,
      ofAbsoluteMax QuantizedType.short (RawType.fin 3) 1 = Outcome.ok q1 ∧
      ofAbsoluteMax QuantizedType.short (RawType.fin 3) 2 = Outcome.ok q2 ∧
      RawType.le q2.m_quantizer q1.m_quantizer = true :=
  ⟨by norm_num, by norm_num, by norm_num, by norm_num,
    C13_scale_antitone 3 1 2 (by norm_num) (by norm_num) (by norm_num) (by norm_num)⟩

/-! ## C14: both transforms are placeholders -/

/-- C14: for every quantizer and all inputs, the empty ones included, `Quantize`
and `Dequantize` both end with the logic error "TODO" and leave the output
vector exactly as the caller passed it; on no input does either return
normally. -/
theorem C14_transforms_throw_and_write_nothing (self : SymmetricQuantizer)
    (rawInput : List RawType) (quantizedOutput : List Int)
    (quantizedInput : List Int) (rawOutput : List RawType) :
    Quantize self rawInput quantizedOutput
        = (Outcome.thrown ExceptionKind.logicError "TODO", quantizedOutput) ∧
    Dequantize self quantizedInput rawOutput
        = (Outcome.thrown ExceptionKind.logicError "TODO", rawOutput) ∧
    Quantize self [] quantizedOutput
        = (Outcome.thrown ExceptionKind.logicError "TODO", quantizedOutput) ∧
    Dequantize self [] rawOutput
        = (Outcome.thrown ExceptionKind.logicError "TODO", rawOutput) ∧
    (¬ ∃ input output, (Quantize self input output).1.isOk = true) ∧
    (¬ ∃ input output, (Dequantize self input output).1.isOk = true) := by
  refine ⟨rfl, rfl, rfl, rfl, ?_, ?_⟩
  · rintro ⟨input, output, h⟩
    simp [Quantize, LogicError, Outcome.isOk] at h
  · rintro ⟨input, output, h⟩
    simp [Dequantize, LogicError, Outcome.isOk] at h

/-! ## C15: `FindAbsMax` from an arbitrary start of the max accumulator -/

/-- C15, as stated, fails at the buffer `[1.0]` when the uninitialised `maxElem`
holds NaN: every comparison with NaN is false, so the accumulator stays NaN,
`FindAbsMax` returns NaN, and NaN is not greater than or equal to `|1.0|`. -/
theorem C15_nan_start_returns_nan :
    FindAbsMax RawType.nan [RawType.fin 1] = Outcome.ok RawType.nan ∧
    RawType.le (std.abs (RawType.fin 1)) RawType.nan = false := by
  constructor
  · norm_num [FindAbsMax, std.max, std.min, std.abs, RawType.lt]
  · rfl

/-- C15, amended: for every start value `m0` of the max accumulator and every
non-empty buffer of finite values with true maximum absolute value `A`,
`FindAbsMax` returns `std::max(m0, A)`; that result is greater than or equal to
`|e|` for every element `e` exactly when `m0` is not NaN; it equals `A` exactly
when `m0 <= A`; and it is `A` when the accumulator starts from the first
element. -/
theorem C15_FindAbsMax_from_any_start (m0 : RawType) (e0 : ℚ) (rest : List ℚ) :
    FindAbsMax m0 ((e0 :: rest).map RawType.fin)
        = Outcome.ok (std.max m0 (RawType.fin (trueAbsMax e0 rest))) ∧
    ((∀ e ∈ e0 :: rest,
        RawType.le (RawType.fin |e|) (std.max m0 (RawType.fin (trueAbsMax e0 rest))) = true)
      ↔ m0 ≠ RawType.nan) ∧
    (std.max m0 (RawType.fin (trueAbsMax e0 rest)) = RawType.fin (trueAbsMax e0 rest)
      ↔ RawType.le m0 (RawType.fin (trueAbsMax e0 rest)) = true) ∧
    FindAbsMax (RawType.fin e0) ((e0 :: rest).map RawType.fin)
        = Outcome.ok (RawType.fin (trueAbsMax e0 rest)) := by
  have hge := trueAbsMax_ge e0 rest
  refine ⟨FindAbsMax_fin m0 e0 rest, ?_, ?_, ?_⟩
  · cases m0 with
    | fin m =>
      simp only [std_max_fin, RawType.le, decide_eq_true_eq, ne_eq, not_false_eq_true,
        iff_true, reduceCtorEq]
      intro e he
      exact le_trans (hge e he) (le_max_right _ _)
    | posInf =>
      simp [std.max, RawType.lt, RawType.le]
    | negInf =>
      simp only [std.max, RawType.lt, RawType.le, if_true, decide_eq_true_eq, ne_eq,
        not_false_eq_true, iff_true, reduceCtorEq]
      intro e he
      exact hge e he
    | nan =>
      simp only [std.max, RawType.lt, RawType.le, ne_eq, not_true_eq_false, iff_false,
        not_forall]
      exact ⟨e0, List.mem_cons_self e0 rest, by simp⟩
  · cases m0 with
    | fin m =>
      simp only [std_max_fin, RawType.le, RawType.fin.injEq, decide_eq_true_eq]
      exact max_eq_right_iff
    | posInf => simp [std.max, RawType.lt, RawType.le]
    | negInf => simp [std.max, RawType.lt, RawType.le]
    | nan => simp [std.max, RawType.lt, RawType.le]
  · rw [FindAbsMax_fin, std_max_fin]
    have hle : e0 ≤ trueAbsMax e0 rest :=
      le_trans (le_abs_self e0) (hge e0 (List.mem_cons_self e0 rest))
    rw [max_eq_right hle]

end CNTK
